import Mathlib

/-!
Verification of the SDR outreach workflow engine: a shallow embedding of the
input normalizer (`utils/input_parser.py`), the personalization-hook
extraction and draft nodes (`graph/nodes.py`), the guardrail gate
(`tools/protect.py`) and the workflow graph (`graph/graph.py`), together with
theorems settling the specification's testable properties.

Strings are modelled as `List Char` (ASCII) and every Python string
operation used by the code (`lower`, `strip`, `split`, `in`, slicing) is
given an explicit executable model below.
-/

set_option maxRecDepth 4000

namespace BDR

/-- Strings of the embedded program: lists of characters. -/
abbrev Str := List Char

/-- Literal helper: the character list of a Lean string literal. -/
def str (s : String) : Str := s.data

/-- The whitespace characters recognised by Python's `str.strip`, `str.split()`
and the regex class `\s` (ASCII range). -/
def pySpace (c : Char) : Bool :=
  c == ' ' || c == '\t' || c == '\n' || c == '\r' || c == '\x0b' || c == '\x0c'

/-- ASCII case table used to model Python's `str.lower`. -/
def lowerPairs : List (Char × Char) :=
  [('A', 'a'), ('B', 'b'), ('C', 'c'), ('D', 'd'), ('E', 'e'), ('F', 'f'),
   ('G', 'g'), ('H', 'h'), ('I', 'i'), ('J', 'j'), ('K', 'k'), ('L', 'l'),
   ('M', 'm'), ('N', 'n'), ('O', 'o'), ('P', 'p'), ('Q', 'q'), ('R', 'r'),
   ('S', 's'), ('T', 't'), ('U', 'u'), ('V', 'v'), ('W', 'w'), ('X', 'x'),
   ('Y', 'y'), ('Z', 'z')]

/-- ASCII case table used to model Python's `str.upper`. -/
def upperPairs : List (Char × Char) := lowerPairs.map (fun p => (p.2, p.1))

/-- Model of Python `str.lower` on one ASCII character. -/
def pyCharLower (c : Char) : Char :=
  ((lowerPairs.find? (fun p => p.1 == c)).map (fun p => p.2)).getD c

/-- Model of Python `str.upper` on one ASCII character. -/
def pyCharUpper (c : Char) : Char :=
  ((upperPairs.find? (fun p => p.1 == c)).map (fun p => p.2)).getD c

/-- Model of Python `str.lower` (ASCII). -/
def pyLower (s : Str) : Str := s.map pyCharLower

/-- Model of Python `str.upper` (ASCII). -/
def pyUpper (s : Str) : Str := s.map pyCharUpper

/-- Model of Python `str.strip()`: drop leading and trailing whitespace. -/
def pyStrip (s : Str) : Str :=
  ((s.dropWhile pySpace).reverse.dropWhile pySpace).reverse

/-- Model of Python `str.split(sep)` for a one-character separator:
`"a.b".split(".") = ["a", "b"]`, `"".split(".") = [""]`. -/
def splitOnChar (c : Char) : Str → List Str
  | [] => [[]]
  | x :: xs =>
    let r := splitOnChar c xs
    if x == c then [] :: r
    else
      match r with
      | h :: t => (x :: h) :: t
      | [] => [[x]]

/-- Inverse of `splitOnChar`: join parts with a one-character separator. -/
def joinChar (c : Char) : List Str → Str
  | [] => []
  | [p] => p
  | p :: ps => p ++ c :: joinChar c ps

/-- `listStarts n h` holds when `n` is a prefix of `h` (model of `str.startswith`). -/
def listStarts : Str → Str → Bool
  | [], _ => true
  | _ :: _, [] => false
  | a :: as, b :: bs => a == b && listStarts as bs

/-- Model of Python's substring test `needle in hay`. -/
def strHas (needle : Str) : Str → Bool
  | [] => listStarts needle []
  | b :: bs => listStarts needle (b :: bs) || strHas needle bs

/-- Python truthiness of an optional string (`None` and `""` are falsy). -/
def pyTruthy : Option Str → Bool
  | none => false
  | some s => !s.isEmpty

/-- Worker for `pyWords`: accumulates the current word in reverse. -/
def pyWordsGo : Str → Str → List Str
  | [], acc => if acc.isEmpty then [] else [acc.reverse]
  | c :: rest, acc =>
    if pySpace c then
      if acc.isEmpty then pyWordsGo rest [] else acc.reverse :: pyWordsGo rest []
    else pyWordsGo rest (c :: acc)

/-- Model of Python `str.split()` with no argument: split on whitespace runs,
discarding empty fragments. -/
def pyWords (s : Str) : List Str := pyWordsGo s []

/-- Model of Python `sep.join(parts)` for an arbitrary separator string. -/
def joinSep (sep : Str) : List Str → Str
  | [] => []
  | [p] => p
  | p :: ps => p ++ sep ++ joinSep sep ps

/-! ## Hook extraction (`graph/nodes.py`, `_extract_personalization_hooks`) -/

/-- The structured output of the web-research tool consumed by the nodes:
`recent_events`/`pain_signals` buckets and the concatenated `summary`
(the `sources` entry is not read by any embedded code and is omitted). -/
structure ResearchResults where
  recent_events : List Str
  pain_signals : List Str
  summary : Str
deriving DecidableEq

/-- The three personalization hooks derived from research. -/
structure Hooks where
  recent_event : Option Str
  pain_point : Option Str
  growth_signal : Option Str
deriving DecidableEq

/-- Event keyword list of `_extract_personalization_hooks`. -/
def event_keywords : List Str :=
  [str "raised", str "funding", str "series", str "launched", str "acquired",
   str "announced", str "partnership", str "merger", str "ipo",
   str "investment", str "venture", str "round", str "expansion", str "opens",
   str "debuts", str "unveils", str "introduces", str "releases"]

/-- Pain keyword list of `_extract_personalization_hooks`. -/
def pain_keywords : List Str :=
  [str "challenge", str "problem", str "struggle", str "difficult",
   str "issue", str "concern", str "risk", str "threat", str "vulnerability",
   str "compliance", str "regulation", str "security", str "fraud",
   str "cybersecurity", str "data breach", str "outage"]

/-- Growth keyword list of `_extract_personalization_hooks`. -/
def growth_keywords : List Str :=
  [str "hiring", str "expanding", str "growing", str "adding",
   str "recruiting", str "scaling", str "building", str "team", str "talent",
   str "headcount", str "positions", str "jobs", str "opening",
   str "opportunities", str "careers"]

/-- AI/technology keyword list of the summary fallback. -/
def ai_keywords : List Str :=
  [str "ai", str "artificial intelligence", str "machine learning",
   str "technology", str "digital", str "innovation"]

/-- Inner keyword loop over one bucket entry: on the first keyword contained
in the lowercased entry, take the first `.`-sentence containing it, strip and
cap at 150 characters; the result is kept only if truthy (mirrors the
`break` structure of the source). `h` is the hook value accumulated so far. -/
def scanKeywords (entry : Str) : List Str → Option Str → Option Str
  | [], h => h
  | kw :: rest, h =>
    if strHas kw (pyLower entry) then
      let h2 :=
        match (splitOnChar '.' entry).find? (fun sent => strHas kw (pyLower sent)) with
        | some sent => some ((pyStrip sent).take 150)
        | none => h
      if pyTruthy h2 then h2 else scanKeywords entry rest h2
    else scanKeywords entry rest h

/-- Outer entry loop: first entry whose keyword scan yields a truthy hook
wins; later entries are never consulted. -/
def scanEntries (kws : List Str) : List Str → Option Str → Option Str
  | [], h => h
  | e :: rest, h =>
    let h2 := scanKeywords e kws h
    if pyTruthy h2 then h2 else scanEntries kws rest h2

/-- Growth-signal scan over the lowercased summary: first keyword contained
in the summary yields the literal `"Currently <keyword>"`. -/
def growthScan : List Str → Str → Option Str
  | [], _ => none
  | kw :: rest, s =>
    if strHas kw s then some (str "Currently " ++ kw) else growthScan rest s

/-- Summary fallback of `_extract_personalization_hooks`: requires the
(lowercased) summary to exceed 50 characters, then scans its first 3
`.`-sentences for one that, once stripped, exceeds 30 characters and contains
an AI/technology keyword; sets `"Focus on <sentence[:120]>..."`. -/
def fallbackScan (summary : Str) (pain : Option Str) : Option Str :=
  if summary.length > 50 then
    match ((splitOnChar '.' summary).take 3).find?
        (fun s =>
          let s2 := pyStrip s
          decide (30 < s2.length) && ai_keywords.any (fun w => strHas w (pyLower s2))) with
    | some s => some (str "Focus on " ++ (pyStrip s).take 120 ++ str "...")
    | none => pain
  else pain

/-- Embedding of `_extract_personalization_hooks` (`graph/nodes.py`). -/
def extract_personalization_hooks (research_results : Option ResearchResults) : Hooks :=
  match research_results with
  | none => ⟨none, none, none⟩
  | some rr =>
    let summary := pyLower rr.summary
    let recent_event := scanEntries event_keywords rr.recent_events none
    let pain_point := scanEntries pain_keywords rr.pain_signals none
    let growth_signal := growthScan growth_keywords summary
    let pain_final :=
      if (!pyTruthy recent_event && !pyTruthy pain_point && !pyTruthy growth_signal)
          && !summary.isEmpty then
        fallbackScan summary pain_point
      else pain_point
    ⟨recent_event, pain_final, growth_signal⟩

/-! ## Input normalizer (`utils/input_parser.py`, `parse_lead_input`) -/

/-- Result record of `parse_lead_input`. -/
structure ParsedLead where
  input_type : Str
  lead_email : Option Str
  lead_name : Option Str
  lead_company : Option Str
  original_input : Str
deriving DecidableEq

/-- Character class `[a-zA-Z0-9._%+-]` (local part of the email pattern). -/
def localChar (c : Char) : Bool :=
  c.isAlphanum || c == '.' || c == '_' || c == '%' || c == '+' || c == '-'

/-- Character class `[a-zA-Z0-9.-]` (domain part of the email pattern). -/
def domChar (c : Char) : Bool := c.isAlphanum || c == '.' || c == '-'

/-- Split a string at its last `'.'`, if any. -/
def splitLastDot (d : Str) : Option (Str × Str) :=
  let parts := splitOnChar '.' d
  if 2 ≤ parts.length then
    some (joinChar '.' parts.dropLast, parts.getLastD [])
  else none

/-- Matcher for the anchored regex
`^[a-zA-Z0-9._%+-]+@[a-zA-Z0-9.-]+\.[a-zA-Z]{2,}$`: exactly one `@`,
a non-empty local part, and a domain ending in a `.`-separated all-alphabetic
top-level label of length at least 2. -/
def emailMatch (t : Str) : Bool :=
  match splitOnChar '@' t with
  | [l, d] =>
    !l.isEmpty && l.all localChar &&
      (match splitLastDot d with
       | some (m, tld) =>
         !m.isEmpty && m.all domChar && decide (2 ≤ tld.length) && tld.all Char.isAlpha
       | none => false)
  | _ => false

/-- Matcher for `\s*-\s*(.+)$` at the position following the lazy first group:
the next non-whitespace character must be `-`; the remainder, after its
leading whitespace, must be non-empty and free of newlines. Returns the
second capture group. -/
def findDash (rest : Str) : Option Str :=
  match rest.dropWhile pySpace with
  | '-' :: r =>
    let g2 := r.dropWhile pySpace
    if !g2.isEmpty && g2.all (fun c => c != '\n') then some g2 else none
  | _ => none

/-- Lazy expansion of the first group of `^(.+?)\s*-\s*(.+)$`: grow the first
group one character at a time (newlines are excluded by `.`) and stop at the
first split whose remainder matches. Returns both capture groups. -/
def nameCompanyAux : Str → Str → Option (Str × Str)
  | _, [] => none
  | acc, c :: rest =>
    if c == '\n' then none
    else
      let g1 := acc ++ [c]
      match findDash rest with
      | some g2 => some (g1, g2)
      | none => nameCompanyAux g1 rest

/-- Matcher for the anchored regex `^(.+?)\s*-\s*(.+)$` used for the
`"<name> - <company>"` input shape, returning the two capture groups. -/
def nameCompanyMatch (t : Str) : Option (Str × Str) := nameCompanyAux [] t

/-- The invalid-format message of `parse_lead_input`, listing both accepted
input shapes. -/
def invalidFormatMsg : Str :=
  str "Invalid input format. Use either:\n• Email: john.doe@acme.com\n• Name + Company: john smith - Nike"

/-- Embedding of `parse_lead_input` (`utils/input_parser.py`); `Except.error`
carries the `ValueError` message. -/
def parse_lead_input (input_str : Str) : Except Str ParsedLead :=
  if input_str.isEmpty || (pyStrip input_str).isEmpty then
    .error (str "Input cannot be empty")
  else
    let t := pyStrip input_str
    if emailMatch t then
      .ok ⟨str "email", some t, none, none, t⟩
    else
      match nameCompanyMatch t with
      | some (g1, g2) =>
        let name_part := pyStrip g1
        let company_part := pyStrip g2
        if (pyWords name_part).length < 2 then
          .error (str "Name should include at least first and last name (e.g., \x27john smith - Nike\x27)")
        else if company_part.isEmpty then
          .error (str "Company name cannot be empty")
        else
          .ok ⟨str "name_company", none, some name_part, some company_part, t⟩
      | none => .error invalidFormatMsg

/-! ## Guardrail gate (`tools/protect.py`) -/

/-- Target value of a guardrail rule: `"any"`-style string targets, numeric
thresholds, or category lists. -/
inductive Target where
  | s (v : Str)
  | num (q : ℚ)
  | cats (cs : List Str)
deriving DecidableEq

/-- One guardrail rule as passed to the backend. -/
structure Rule where
  metric : Str
  operator : Str
  target_value : Target
deriving DecidableEq

/-- The `OVERRIDE` action of a ruleset: the templated block notice. -/
structure RuleAction where
  type : Str
  choices : List Str
deriving DecidableEq

/-- A prioritized ruleset: rules plus the action taken when one triggers. -/
structure Ruleset where
  rules : List Rule
  action : RuleAction
deriving DecidableEq

/-- Embedding of `_build_rulesets` (`tools/protect.py`): PII, then toxicity
(threshold 0.7 in strict mode, otherwise 0.85), then tone (anger/annoyance),
with a fear/sadness tone ruleset appended only for `linkedin` drafts. -/
def build_rulesets (draft_type : Str) (strict_mode : Bool) : List Ruleset :=
  let rulesets : List Ruleset :=
    [⟨[⟨str "pii", str "contains", .s (str "any")⟩],
      ⟨str "OVERRIDE",
       [str "[BLOCKED BY PROTECT: PII detected in " ++ pyUpper draft_type ++
          str ". Please regenerate without personal information.]"]⟩⟩,
     ⟨[⟨str "toxicity", str "gt", .num (if strict_mode then 7/10 else 17/20)⟩],
      ⟨str "OVERRIDE",
       [str "[BLOCKED BY PROTECT: Toxic content detected in " ++ pyUpper draft_type ++
          str ". Please regenerate with professional language.]"]⟩⟩,
     ⟨[⟨str "tone", str "contains", .cats [str "anger", str "annoyance"]⟩],
      ⟨str "OVERRIDE",
       [str "[BLOCKED BY PROTECT: Unprofessional tone in " ++ pyUpper draft_type ++
          str ". Please regenerate with neutral/positive tone.]"]⟩⟩]
  if draft_type = str "linkedin" then
    rulesets ++
      [⟨[⟨str "tone", str "contains", .cats [str "fear", str "sadness"]⟩],
        ⟨str "OVERRIDE",
         [str "[BLOCKED BY PROTECT: Negative tone in LinkedIn message. Please regenerate with positive/professional tone.]"]⟩⟩]
  else rulesets

/-- A rule reported as triggered by the backend. -/
structure TriggeredRule where
  metric : Str
  value : Option ℚ
  threshold : Option ℚ
deriving DecidableEq

/-- Response of the guardrail backend's `invoke`. -/
structure ProtectResponse where
  overridden : Bool
  output : Str
  triggered_rules : List TriggeredRule
deriving DecidableEq

/-- One violation entry of a `GuardrailVerdict`. -/
structure Violation where
  metric : Str
  value : Option ℚ
  threshold : Option ℚ
deriving DecidableEq

/-- The verdict dictionary returned by `validate_draft_output`. -/
structure GuardrailVerdict where
  safe : Bool
  filtered_text : Str
  violations : List Violation
  original_text : Str
  error : Option Str
deriving DecidableEq

/-- Behaviour of the guardrail infrastructure for one call:
initialization previously failed (`stage_id == "fallback"`), the backend
call raises, or the backend evaluates the payload against the prioritized
rulesets. -/
inductive Backend where
  | unavailable
  | throws (msg : Str)
  | responds (eval : List Ruleset → Str → Str → ProtectResponse)

/-- Modelled from the spec: the external Guardrail Backend collaborator
(`gp.invoke`, not part of this repository). Rules are evaluated in priority
order against the content, abstracted as the predicate `trig`; the first
triggered prioritized ruleset's override text replaces the output, and all
triggered rules are reported. -/
def gpInvokeModel (trig : Rule → Bool) : List Ruleset → Str → Str → ProtectResponse :=
  fun rulesets _input output =>
    let triggered := rulesets.filter (fun rs => rs.rules.any trig)
    match triggered with
    | [] => ⟨false, output, []⟩
    | rs :: _ =>
      ⟨true, rs.action.choices.headD output,
       (triggered.map (fun r => r.rules.filter trig)).flatten.map
         (fun r => ⟨r.metric, none, none⟩)⟩

/-- Embedding of `validate_draft_output` (`tools/protect.py`). The module
state (`init_protect`) and the fallibility of `gp.invoke` are modelled by
the `Backend` argument; the dict/object response normalization of the source
is the identity on the structured `ProtectResponse`. -/
def validate_draft_output (backend : Backend) (draft_text draft_type user_input : Str)
    (strict_mode : Bool) : GuardrailVerdict :=
  match backend with
  | .unavailable =>
    ⟨true, draft_text, [], draft_text, some (str "Protect not initialized")⟩
  | .throws msg => ⟨true, draft_text, [], draft_text, some msg⟩
  | .responds eval =>
    let payload_input :=
      if !user_input.isEmpty then user_input
      else str "Generate " ++ draft_type ++ str " for SDR outreach"
    let resp := eval (build_rulesets draft_type strict_mode) payload_input draft_text
    let violations := resp.triggered_rules.map (fun r => (⟨r.metric, r.value, r.threshold⟩ : Violation))
    ⟨!resp.overridden, resp.output, violations, draft_text, none⟩

/-! ## Workflow state and nodes (`graph/state.py`, `graph/nodes.py`) -/

/-- Metadata of an enrichment record (the fields read by the embedded code;
`none` models a missing or `None` dictionary entry). -/
structure EnrichMetadata where
  company : Option Str
  industry : Option Str
  title : Option Str
  location : Option Str
deriving DecidableEq

/-- One enrichment record returned by the profile store. -/
structure Enrichment where
  content : Str
  metadata : EnrichMetadata
deriving DecidableEq

/-- Embedding of `LeadState` (`graph/state.py`). `status` uses the
append reducer; optional fields model `None`/absent dictionary values. -/
structure LeadState where
  lead_id : Str
  input_type : Str
  original_input : Str
  lead_email : Option Str
  lead_name : Option Str
  lead_company : Option Str
  enrichment_data : Option Enrichment
  enrichment_sufficient : Bool
  research_results : Option ResearchResults
  personalization_hooks : Option Hooks
  email_draft : Option Str
  linkedin_draft : Option Str
  call_script : Option Str
  status : List Str
  error : Option Str
deriving DecidableEq

/-- Python truthiness of an optional string value. -/
def optTruthy : Option Str → Bool
  | none => false
  | some s => !s.isEmpty

/-- Embedding of `_check_enrichment_quality`: company, industry and title
metadata must be truthy and the content longer than 100 characters. -/
def check_enrichment_quality (e : Enrichment) : Bool :=
  optTruthy e.metadata.company && optTruthy e.metadata.industry &&
    optTruthy e.metadata.title && decide (100 < e.content.length)

/-- Embedding of `_build_context`: renders enrichment metadata plus the
categorized research buckets (each capped at 200 characters). -/
def build_context (enrichment : Option Enrichment) (research : Option ResearchResults) : Str :=
  let parts : List Str :=
    match enrichment with
    | none => []
    | some e =>
      [str "Company: " ++ e.metadata.company.getD (str "N/A"),
       str "Title: " ++ e.metadata.title.getD (str "N/A"),
       str "Industry: " ++ e.metadata.industry.getD (str "N/A"),
       str "Location: " ++ e.metadata.location.getD (str "N/A"),
       str "\nEnrichment: " ++ e.content]
  let parts :=
    match research with
    | none => parts
    | some r =>
      let parts :=
        if !r.recent_events.isEmpty then
          parts ++ [str "\nRecent Company News: " ++ (joinSep (str " ") r.recent_events).take 200]
        else parts
      if !r.pain_signals.isEmpty then
        parts ++ [str "\nIndustry Challenges: " ++ (joinSep (str " ") r.pain_signals).take 200]
      else parts
  joinSep (str "\n") parts

/-- The placeholder contact address fabricated for `name_company` leads:
`"<name lowercased, spaces → dots>@<company lowercased, spaces removed>.com"`. -/
def placeholder_email (lead_name lead_company : Str) : Str :=
  (pyLower lead_name).map (fun c => if c == ' ' then '.' else c) ++ str "@" ++
    (pyLower lead_company).filter (fun c => c != ' ') ++ str ".com"

/-- Update dictionary returned by `retrieve_enrichment` (an absent `error`
key is `none`; merging only overwrites `error` when present). -/
structure EnrichUpdate where
  enrichment_data : Option Enrichment
  enrichment_sufficient : Bool
  status : List Str
  error : Option Str
deriving DecidableEq

/-- Embedding of `retrieve_enrichment` (`graph/nodes.py`). The profile-store
call (`retriever.invoke` + `json.loads`) is the `retrieverResult` oracle:
`.error` models a raised exception, `.ok` the parsed result list. -/
def retrieve_enrichment (retrieverResult : Except Str (List Enrichment))
    (state : LeadState) : EnrichUpdate :=
  if state.input_type = str "name_company" then
    ⟨none, false, [str "enrichment_skipped_name_company"], none⟩
  else if !optTruthy state.lead_email then
    ⟨none, false, [str "enrichment_error"], some (str "No email provided for email-based lookup")⟩
  else
    match retrieverResult with
    | .ok (r :: _) => ⟨some r, check_enrichment_quality r, [str "enrichment_retrieved"], none⟩
    | .ok [] => ⟨none, false, [str "enrichment_not_found"], none⟩
    | .error e => ⟨none, false, [str "enrichment_error"], some e⟩

/-- External calls performed by the nodes, recorded with their arguments. -/
inductive Call where
  | webResearch (email : Option Str) (company : Str) (title : Str)
  | protectValidate (text : Str) (draft_type : Str)
  | gmailCreateDraft (recipient : Option Str) (subject : Str) (body : Str)
  | linkedinDraft (recipient : Option Str) (message : Str)
  | saveCallScript (path : Str) (content : Str)
deriving DecidableEq

/-- Update dictionary returned by `web_research_node`. -/
structure ResearchUpdate where
  research_results : Option ResearchResults
  personalization_hooks : Option Hooks
  status : List Str
  error : Option Str
deriving DecidableEq

/-- Embedding of `web_research_node` (`graph/nodes.py`). The outer
`Except.error` models an exception escaping the node (raised outside its
`try` block: `.lower()` on a `None` lead name/company); the web-search call
is the `webResearchResult` oracle. -/
def web_research_node (webResearchResult : Except Str ResearchResults)
    (state : LeadState) : Except Str (ResearchUpdate × List Call) :=
  let build_params : Except Str (Option Str × Str × Str) :=
    if state.input_type = str "email" then
      let md := (state.enrichment_data.map Enrichment.metadata).getD ⟨none, none, none, none⟩
      let company := md.company.getD []
      let title := md.title.getD []
      let company_search := if !company.isEmpty then company ++ str " company" else []
      .ok (state.lead_email, company_search, title)
    else
      match state.lead_name, state.lead_company with
      | some n, some c =>
        let company_search := if !c.isEmpty then c ++ str " company" else []
        .ok (some (placeholder_email n c), company_search, [])
      | _, _ => .error (str "AttributeError: \x27NoneType\x27 object has no attribute \x27lower\x27")
  match build_params with
  | .error e => .error e
  | .ok (email, company_search, title) =>
    let trace := [Call.webResearch email company_search title]
    match webResearchResult with
    | .ok rr =>
      .ok (⟨some rr, some (extract_personalization_hooks (some rr)),
            [str "research_completed"], none⟩, trace)
    | .error e => .ok (⟨none, some ⟨none, none, none⟩, [str "research_error"], some e⟩, trace)

/-- Update dictionary returned by `draft_email_node`. -/
structure EmailUpdate where
  email_draft : Option Str
  status : List Str
  error : Option Str
deriving DecidableEq

/-- Oracle for `draft_email_node`: the LLM call, the guardrail backend and
the Gmail draft-creation call. -/
structure EmailOracle where
  llm : Except Str Str
  backend : Backend
  gmail : Except Str Unit

/-- The recipient computed before the `try` block of `draft_email_node`
(raises for `name_company` states with a missing name or company). -/
def emailRecipient (state : LeadState) : Except Str (Option Str) :=
  if state.input_type = str "email" then .ok state.lead_email
  else
    match state.lead_name, state.lead_company with
    | some n, some c => .ok (some (placeholder_email n c))
    | _, _ => .error (str "AttributeError: \x27NoneType\x27 object has no attribute \x27lower\x27")

/-- The company name used in the email subject (raises inside the `try`
block when an email-mode state has no enrichment record; a `None`
`lead_company` renders as Python's `"None"`). -/
def emailCompanyName (state : LeadState) : Except Str Str :=
  if state.input_type = str "email" then
    match state.enrichment_data with
    | none => .error (str "AttributeError: \x27NoneType\x27 object has no attribute \x27get\x27")
    | some e => .ok (e.metadata.company.getD (str "your company"))
  else .ok (state.lead_company.getD (str "None"))

/-- Embedding of `draft_email_node` (`graph/nodes.py`): generate, validate
through the guardrail gate, then create the Gmail draft; every exception
inside the `try` block yields the `email_error` update. The outer
`Except.error` models the pre-`try` recipient computation escaping. -/
def draft_email_node (o : EmailOracle) (state : LeadState) : Except Str (EmailUpdate × List Call) :=
  match emailRecipient state with
  | .error e => .error e
  | .ok recipient_email =>
    let context := build_context state.enrichment_data state.research_results
    match o.llm with
    | .error e => .ok (⟨none, [str "email_error"], some e⟩, [])
    | .ok generated =>
      let validation := validate_draft_output o.backend generated (str "email") context true
      let trace := [Call.protectValidate generated (str "email")]
      if !validation.safe then
        .ok (⟨some validation.filtered_text, [str "email_blocked_by_protect"],
              some (str "Guardrails triggered: " ++
                joinSep (str ", ") (validation.violations.map Violation.metric))⟩, trace)
      else
        let email_draft := validation.filtered_text
        match emailCompanyName state with
        | .error e => .ok (⟨none, [str "email_error"], some e⟩, trace)
        | .ok company_name =>
          let subject := str "Improving ML model quality at " ++ company_name
          let trace := trace ++ [Call.gmailCreateDraft recipient_email subject email_draft]
          match o.gmail with
          | .error e => .ok (⟨none, [str "email_error"], some e⟩, trace)
          | .ok _ => .ok (⟨some email_draft, [str "email_drafted"], none⟩, trace)

/-- Update dictionary returned by `draft_linkedin_node`. -/
structure LinkedinUpdate where
  linkedin_draft : Option Str
  status : List Str
  error : Option Str
deriving DecidableEq

/-- Oracle for `draft_linkedin_node`. -/
structure LinkedinOracle where
  llm : Except Str Str
  backend : Backend
  api : Except Str Unit

/-- Embedding of `draft_linkedin_node` (`graph/nodes.py`). -/
def draft_linkedin_node (o : LinkedinOracle) (state : LeadState) :
    Except Str (LinkedinUpdate × List Call) :=
  match emailRecipient state with
  | .error e => .error e
  | .ok recipient_email =>
    let context := build_context state.enrichment_data state.research_results
    match o.llm with
    | .error e => .ok (⟨none, [str "linkedin_error"], some e⟩, [])
    | .ok generated =>
      let validation := validate_draft_output o.backend generated (str "linkedin") context true
      let trace := [Call.protectValidate generated (str "linkedin")]
      if !validation.safe then
        .ok (⟨some validation.filtered_text, [str "linkedin_blocked_by_protect"],
              some (str "Guardrails triggered: " ++
                joinSep (str ", ") (validation.violations.map Violation.metric))⟩, trace)
      else
        let linkedin_draft := validation.filtered_text
        let trace := trace ++ [Call.linkedinDraft recipient_email linkedin_draft]
        match o.api with
        | .error e => .ok (⟨none, [str "linkedin_error"], some e⟩, trace)
        | .ok _ => .ok (⟨some linkedin_draft, [str "linkedin_drafted"], none⟩, trace)

/-- Update dictionary returned by `draft_call_script_node`. -/
structure CallScriptUpdate where
  call_script : Option Str
  status : List Str
  error : Option Str
deriving DecidableEq

/-- Oracle for `draft_call_script_node`: the LLM call and the markdown file
save (`os.makedirs` + `open`/`write`). -/
structure CallScriptOracle where
  llm : Except Str Str
  fileSave : Except Str Unit

/-- Embedding of `draft_call_script_node` (`graph/nodes.py`): generate and
save to `./outputs/call_script_<lead_id>.md`. The generated text is accepted
without any guardrail validation. -/
def draft_call_script_node (o : CallScriptOracle) (state : LeadState) :
    CallScriptUpdate × List Call :=
  let _context := build_context state.enrichment_data state.research_results
  match o.llm with
  | .error e => (⟨none, [str "call_script_error"], some e⟩, [])
  | .ok call_script =>
    let path := str "./outputs/call_script_" ++ state.lead_id ++ str ".md"
    let trace := [Call.saveCallScript path call_script]
    match o.fileSave with
    | .error e => (⟨none, [str "call_script_error"], some e⟩, trace)
    | .ok _ => (⟨some call_script, [str "call_script_drafted"], none⟩, trace)

/-! ## Workflow graph (`graph/graph.py`) -/

/-- Embedding of `should_do_research`: always routes to research. -/
def should_do_research (_state : LeadState) : Str := str "research"

/-- LangGraph merge of an enrichment update into the state (`status` uses
the append reducer; `error` is only overwritten when the key is present). -/
def applyEnrich (st : LeadState) (u : EnrichUpdate) : LeadState :=
  { st with
    enrichment_data := u.enrichment_data
    enrichment_sufficient := u.enrichment_sufficient
    status := st.status ++ u.status
    error := match u.error with | some e => some e | none => st.error }

/-- LangGraph merge of a research update into the state. -/
def applyResearch (st : LeadState) (u : ResearchUpdate) : LeadState :=
  { st with
    research_results := u.research_results
    personalization_hooks := u.personalization_hooks
    status := st.status ++ u.status
    error := match u.error with | some e => some e | none => st.error }

/-- LangGraph merge of an email update into the state. -/
def applyEmail (st : LeadState) (u : EmailUpdate) : LeadState :=
  { st with
    email_draft := u.email_draft
    status := st.status ++ u.status
    error := match u.error with | some e => some e | none => st.error }

/-- LangGraph merge of a LinkedIn update into the state. -/
def applyLinkedin (st : LeadState) (u : LinkedinUpdate) : LeadState :=
  { st with
    linkedin_draft := u.linkedin_draft
    status := st.status ++ u.status
    error := match u.error with | some e => some e | none => st.error }

/-- LangGraph merge of a call-script update into the state. -/
def applyCallScript (st : LeadState) (u : CallScriptUpdate) : LeadState :=
  { st with
    call_script := u.call_script
    status := st.status ++ u.status
    error := match u.error with | some e => some e | none => st.error }

/-- All external-call oracles of one workflow run. -/
structure Oracles where
  retrieverResult : Except Str (List Enrichment)
  webResearchResult : Except Str ResearchResults
  email : EmailOracle
  linkedin : LinkedinOracle
  callScript : CallScriptOracle

/-- The `InvalidUpdateError` LangGraph raises when two nodes write a plain
(reducer-less) state key in the same superstep; in `LeadState` only
`status` has a reducer, so concurrent writes to `error` raise this. -/
def invalidUpdateMsg : Str :=
  str "InvalidUpdateError: At key \x27error\x27: Can receive only one value per step. Use an Annotated key to handle multiple values."

/-- The fan-out stage of the compiled graph: `draft_email` followed by the
concurrent `draft_linkedin` and `draft_call_script`, both reading the
post-email state and writing their updates in one superstep. `status` is
merged by its append reducer and the draft slots have disjoint single
writers, but `error` is a plain last-value channel: when both concurrent
updates carry an `error` key, LangGraph raises `InvalidUpdateError` and the
run aborts; otherwise at most one node wrote `error` and the sequential
merge below is order-independent (this embedding records the LinkedIn
branch's trace first). -/
def runDrafts (o : Oracles) (st : LeadState) (tr : List Call) :
    Except Str (LeadState × List Call) :=
  match draft_email_node o.email st with
  | .error e => .error e
  | .ok (ue, te) =>
    let st2 := applyEmail st ue
    match draft_linkedin_node o.linkedin st2 with
    | .error e => .error e
    | .ok (ul, tl) =>
      let (uc, tc) := draft_call_script_node o.callScript st2
      match ul.error, uc.error with
      | some _, some _ => .error invalidUpdateMsg
      | _, _ => .ok (applyCallScript (applyLinkedin st2 ul) uc, tr ++ te ++ tl ++ tc)

/-- Embedding of the compiled graph of `build_graph` (`graph/graph.py`):
entry `retrieve_enrichment`, the conditional edge driven by
`should_do_research` (mapping `"research"` to `web_research` and `"draft"`
straight to drafting), `web_research → draft_email`, then the fan-out.
An `Except.error` result models an exception escaping the workflow. -/
def run_graph (o : Oracles) (st0 : LeadState) : Except Str (LeadState × List Call) :=
  let st1 := applyEnrich st0 (retrieve_enrichment o.retrieverResult st0)
  if should_do_research st1 = str "research" then
    match web_research_node o.webResearchResult st1 with
    | .error e => .error e
    | .ok (ur, tr) => runDrafts o (applyResearch st1 ur) tr
  else runDrafts o st1 []

/-! ## Auxiliary predicates and example inputs -/

/-- Recognises a guardrail-gate call in a trace. -/
def isProtectCall : Call → Bool
  | .protectValidate _ _ => true
  | _ => false

/-- Well-formedness of an initial state, as established by the input
normalizer: the input mode is one of the two canonical shapes and the
fields matching that mode are populated. -/
def wellFormedInput (st : LeadState) : Prop :=
  (st.input_type = str "email" ∧ st.lead_email.isSome = true) ∨
    (st.input_type = str "name_company" ∧ st.lead_name.isSome = true ∧
      st.lead_company.isSome = true)

/-- The SOCIAL_MESSAGE slot of a terminal state is settled: either a
non-absent draft with a success or block-notice status, or absent together
with the `linkedin_error` status token. -/
def linkedinSettled (st : LeadState) : Prop :=
  (∃ s, st.linkedin_draft = some s ∧
    (str "linkedin_drafted" ∈ st.status ∨ str "linkedin_blocked_by_protect" ∈ st.status)) ∨
    (st.linkedin_draft = none ∧ str "linkedin_error" ∈ st.status)

/-- The CALL_SCRIPT slot of a terminal state is settled: either a non-absent
script with the success status, or absent together with the
`call_script_error` status token. -/
def callScriptSettled (st : LeadState) : Prop :=
  (∃ s, st.call_script = some s ∧ str "call_script_drafted" ∈ st.status) ∨
    (st.call_script = none ∧ str "call_script_error" ∈ st.status)

/-- A concrete well-formed `name_company` initial state. -/
def exampleNameState : LeadState :=
  { lead_id := str "lead_001"
    input_type := str "name_company"
    original_input := str "jane doe - Acme"
    lead_email := none
    lead_name := some (str "jane doe")
    lead_company := some (str "Acme")
    enrichment_data := none
    enrichment_sufficient := false
    research_results := none
    personalization_hooks := none
    email_draft := none
    linkedin_draft := none
    call_script := none
    status := []
    error := none }

/-- A concrete well-formed `email` initial state. -/
def exampleEmailState : LeadState :=
  { lead_id := str "lead_002"
    input_type := str "email"
    original_input := str "sarah.johnson@techcorp.com"
    lead_email := some (str "sarah.johnson@techcorp.com")
    lead_name := none
    lead_company := none
    enrichment_data := none
    enrichment_sufficient := false
    research_results := none
    personalization_hooks := none
    email_draft := none
    linkedin_draft := none
    call_script := none
    status := []
    error := none }

/-- A concrete oracle assignment in which every external call fails. -/
def exampleOracles : Oracles :=
  { retrieverResult := .error (str "ConnectionError")
    webResearchResult := .error (str "timeout")
    email := ⟨.error (str "llm down"), .unavailable, .error (str "gmail down")⟩
    linkedin := ⟨.error (str "llm down"), .unavailable, .error (str "li down")⟩
    callScript := ⟨.error (str "llm down"), .error (str "disk full")⟩ }

/-! ## Theorems -/

/-- C2: `validate_draft_output` never raises to its caller: when the
guardrail backend is unavailable (initialization previously failed) or the
backend call throws, the returned verdict has `safe = true`, `filtered_text`
equal to the original draft text, and an empty violations list (fail-open),
for any input text. -/
theorem guardrail_fail_open (t dt ui msg : Str) (sm : Bool) :
    validate_draft_output .unavailable t dt ui sm =
      ⟨true, t, [], t, some (str "Protect not initialized")⟩ ∧
    validate_draft_output (.throws msg) t dt ui sm = ⟨true, t, [], t, some msg⟩ :=
  ⟨rfl, rfl⟩

/-- C6 counterexample: for a `name_company` state the Enrichment Gate's
status token is `enrichment_skipped_name_company`, not the token
`enrichment_skipped` stated by the claim. -/
theorem enrichment_skip_token_cex :
    (retrieve_enrichment (.error (str "down")) exampleNameState).status =
      [str "enrichment_skipped_name_company"] ∧
    str "enrichment_skipped" ∉
      (retrieve_enrichment (.error (str "down")) exampleNameState).status := by
  constructor
  · rfl
  · decide

/-- C6 amended: for every state with `input_type = "name_company"` the
Enrichment Gate skips the profile-store lookup entirely and returns an
absent enrichment, `enrichment_sufficient = false` and the status token
`enrichment_skipped_name_company`; the conditional edge after enrichment
always routes to research. -/
theorem enrichment_skip_name_company (ro : Except Str (List Enrichment))
    (st : LeadState) (h : st.input_type = str "name_company") :
    retrieve_enrichment ro st =
      ⟨none, false, [str "enrichment_skipped_name_company"], none⟩ ∧
    should_do_research (applyEnrich st (retrieve_enrichment ro st)) = str "research" := by
  constructor
  · unfold retrieve_enrichment
    rw [if_pos h]
  · rfl

/-- C6 witness: the amended skip theorem applied to the concrete
`name_company` example state. -/
theorem enrichment_skip_name_company_witness :
    exampleNameState.input_type = str "name_company" ∧
    retrieve_enrichment (.error (str "down")) exampleNameState =
      ⟨none, false, [str "enrichment_skipped_name_company"], none⟩ :=
  ⟨rfl, (enrichment_skip_name_company (.error (str "down")) exampleNameState rfl).1⟩

/-- C9: in `draft_email_node`, when the Gmail draft-creation call throws
after the generated text has already passed guardrail validation, the
node's except path discards the validated draft: `email_draft` is set to
absent, the `email_error` status token is appended and the failure message
is recorded in `error`. -/
theorem email_gmail_failure_discards_draft (st : LeadState) (b : Backend)
    (d msg : Str) (r : Option Str) (cn : Str)
    (hr : emailRecipient st = .ok r) (hc : emailCompanyName st = .ok cn)
    (hsafe : (validate_draft_output b d (str "email")
      (build_context st.enrichment_data st.research_results) true).safe = true) :
    ∃ tr, draft_email_node ⟨.ok d, b, .error msg⟩ st =
      .ok (⟨none, [str "email_error"], some msg⟩, tr) := by
  unfold draft_email_node
  rw [hr]
  simp only [hsafe, Bool.not_true, Bool.false_eq_true, if_false]
  rw [hc]
  exact ⟨_, rfl⟩

/-- C9 witness: a concrete run where generation succeeds, validation is
fail-open safe, and the Gmail call throws; the validated draft is
discarded. -/
theorem email_gmail_failure_discards_draft_witness :
    emailRecipient exampleNameState = .ok (some (placeholder_email (str "jane doe") (str "Acme"))) ∧
    emailCompanyName exampleNameState = .ok (str "Acme") ∧
    (validate_draft_output .unavailable (str "Congrats on the launch!") (str "email")
      (build_context exampleNameState.enrichment_data exampleNameState.research_results) true).safe = true ∧
    ∃ tr, draft_email_node ⟨.ok (str "Congrats on the launch!"), .unavailable, .error (str "gmail down")⟩
        exampleNameState =
      .ok (⟨none, [str "email_error"], some (str "gmail down")⟩, tr) :=
  ⟨by rfl, by rfl, by rfl,
   email_gmail_failure_discards_draft exampleNameState .unavailable
     (str "Congrats on the launch!") (str "gmail down")
     (some (placeholder_email (str "jane doe") (str "Acme"))) (str "Acme")
     (by rfl) (by rfl) (by rfl)⟩

/-- C10: for every `name_company` lead, the system fabricates the
placeholder contact address `placeholder_email` (name lowercased with
spaces replaced by dots, at organization lowercased with spaces removed,
`.com`) and uses it as the research-tool email parameter and as the
recipient of the Gmail and LinkedIn delivery calls: every such call in any
node trace carries exactly this address, and on successful generation with
a fail-open gate the delivery calls do occur with it. -/
theorem placeholder_contact_address_used (st : LeadState) (n c : Str)
    (h : st.input_type = str "name_company")
    (hn : st.lead_name = some n) (hc : st.lead_company = some c) :
    (∀ wo, ∃ u comp, web_research_node wo st =
      .ok (u, [Call.webResearch (some (placeholder_email n c)) comp []])) ∧
    (∀ eo u t, draft_email_node eo st = .ok (u, t) →
      ∀ r s b, Call.gmailCreateDraft r s b ∈ t → r = some (placeholder_email n c)) ∧
    (∀ d g, ∃ u t, draft_email_node ⟨.ok d, .unavailable, g⟩ st = .ok (u, t) ∧
      ∃ s b, Call.gmailCreateDraft (some (placeholder_email n c)) s b ∈ t) ∧
    (∀ lo u t, draft_linkedin_node lo st = .ok (u, t) →
      ∀ r m, Call.linkedinDraft r m ∈ t → r = some (placeholder_email n c)) ∧
    (∀ d a, ∃ u t, draft_linkedin_node ⟨.ok d, .unavailable, a⟩ st = .ok (u, t) ∧
      ∃ m, Call.linkedinDraft (some (placeholder_email n c)) m ∈ t) := by
  have hne : ¬ st.input_type = str "email" := by rw [h]; decide
  have hrec : emailRecipient st = .ok (some (placeholder_email n c)) := by
    unfold emailRecipient; rw [if_neg hne, hn, hc]
  have hcn : emailCompanyName st = .ok c := by
    unfold emailCompanyName; rw [if_neg hne, hc]; rfl
  refine ⟨?_, ?_, ?_, ?_, ?_⟩
  · intro wo
    unfold web_research_node
    rw [if_neg hne, hn, hc]
    cases wo <;> exact ⟨_, _, rfl⟩
  · intro eo u t hok r s b hmem
    unfold draft_email_node at hok
    rw [hrec] at hok
    cases hllm : eo.llm with
    | error e => rw [hllm] at hok; simp only [Except.ok.injEq, Prod.mk.injEq] at hok
                 rw [← hok.2] at hmem; simp at hmem
    | ok d =>
      rw [hllm] at hok
      by_cases hsafe : (validate_draft_output eo.backend d (str "email")
          (build_context st.enrichment_data st.research_results) true).safe
      · simp only [hsafe, Bool.not_true, Bool.false_eq_true, if_false] at hok
        rw [hcn] at hok
        cases hgm : eo.gmail <;> rw [hgm] at hok <;>
          simp only [Except.ok.injEq, Prod.mk.injEq] at hok <;>
          rw [← hok.2] at hmem <;> simp_all
      · simp only [Bool.not_eq_true] at hsafe
        simp only [hsafe, Bool.not_false, if_true] at hok
        simp only [Except.ok.injEq, Prod.mk.injEq] at hok
        rw [← hok.2] at hmem; simp at hmem
  · intro d g
    unfold draft_email_node
    rw [hrec]
    simp only []
    rw [hcn]
    cases g with
    | error e =>
      exact ⟨_, _, rfl, str "Improving ML model quality at " ++ c,
        (validate_draft_output .unavailable d (str "email")
          (build_context st.enrichment_data st.research_results) true).filtered_text,
        List.mem_cons_of_mem _ (List.mem_cons_self _ _)⟩
    | ok x =>
      exact ⟨_, _, rfl, str "Improving ML model quality at " ++ c,
        (validate_draft_output .unavailable d (str "email")
          (build_context st.enrichment_data st.research_results) true).filtered_text,
        List.mem_cons_of_mem _ (List.mem_cons_self _ _)⟩
  · intro lo u t hok r m hmem
    unfold draft_linkedin_node at hok
    rw [hrec] at hok
    cases hllm : lo.llm with
    | error e => rw [hllm] at hok; simp only [Except.ok.injEq, Prod.mk.injEq] at hok
                 rw [← hok.2] at hmem; simp at hmem
    | ok d =>
      rw [hllm] at hok
      by_cases hsafe : (validate_draft_output lo.backend d (str "linkedin")
          (build_context st.enrichment_data st.research_results) true).safe
      · simp only [hsafe, Bool.not_true, Bool.false_eq_true, if_false] at hok
        cases hapi : lo.api <;> rw [hapi] at hok <;>
          simp only [Except.ok.injEq, Prod.mk.injEq] at hok <;>
          rw [← hok.2] at hmem <;> simp_all
      · simp only [Bool.not_eq_true] at hsafe
        simp only [hsafe, Bool.not_false, if_true] at hok
        simp only [Except.ok.injEq, Prod.mk.injEq] at hok
        rw [← hok.2] at hmem; simp at hmem
  · intro d a
    unfold draft_linkedin_node
    rw [hrec]
    cases a with
    | error e =>
      exact ⟨_, _, rfl,
        (validate_draft_output .unavailable d (str "linkedin")
          (build_context st.enrichment_data st.research_results) true).filtered_text,
        List.mem_cons_of_mem _ (List.mem_cons_self _ _)⟩
    | ok x =>
      exact ⟨_, _, rfl,
        (validate_draft_output .unavailable d (str "linkedin")
          (build_context st.enrichment_data st.research_results) true).filtered_text,
        List.mem_cons_of_mem _ (List.mem_cons_self _ _)⟩

/-- C10 witness: the placeholder-address theorem applied to the concrete
`name_company` example state: the Gmail delivery call receives
`jane.doe@acme.com`. -/
theorem placeholder_contact_address_used_witness :
    exampleNameState.input_type = str "name_company" ∧
    exampleNameState.lead_name = some (str "jane doe") ∧
    exampleNameState.lead_company = some (str "Acme") ∧
    (∃ u t, draft_email_node ⟨.ok (str "hello"), .unavailable, .ok ()⟩ exampleNameState = .ok (u, t) ∧
      ∃ s b, Call.gmailCreateDraft (some (placeholder_email (str "jane doe") (str "Acme"))) s b ∈ t) :=
  ⟨rfl, rfl, rfl,
   (placeholder_contact_address_used exampleNameState (str "jane doe") (str "Acme")
     rfl rfl rfl).2.2.1 (str "hello") (.ok ())⟩

/-- C1 counterexample: the CALL_SCRIPT draft node accepts the raw generated
text with a success status and performs no guardrail call, even for text the
Guardrail Gate would block (an always-triggering backend yields an unsafe
verdict on the same text). -/
theorem call_script_bypasses_guardrail_cex :
    draft_call_script_node ⟨.ok (str "UNSAFE CALL SCRIPT"), .ok ()⟩ exampleNameState =
      (⟨some (str "UNSAFE CALL SCRIPT"), [str "call_script_drafted"], none⟩,
       [Call.saveCallScript (str "./outputs/call_script_lead_001.md") (str "UNSAFE CALL SCRIPT")]) ∧
    ((draft_call_script_node ⟨.ok (str "UNSAFE CALL SCRIPT"), .ok ()⟩ exampleNameState).2.filter
        isProtectCall) = [] ∧
    (validate_draft_output (.responds (gpInvokeModel (fun _ => true))) (str "UNSAFE CALL SCRIPT")
      (str "call_script") (build_context none none) true).safe = false := by
  exact ⟨rfl, rfl, rfl⟩

/-- C1 amended: the EMAIL and SOCIAL_MESSAGE draft nodes always route the
generated text through the Guardrail Gate (`validate_draft_output`) before
accepting it, and on a blocking verdict store the gate's override text in
the draft slot together with the block status token and a violations error;
the CALL_SCRIPT node, however, never calls the gate. -/
theorem email_linkedin_guardrail_gated :
    (∀ (o : EmailOracle) (st : LeadState) (d : Str) (u : EmailUpdate) (t : List Call),
      o.llm = .ok d → draft_email_node o st = .ok (u, t) →
      Call.protectValidate d (str "email") ∈ t ∧
      ((validate_draft_output o.backend d (str "email")
          (build_context st.enrichment_data st.research_results) true).safe = false →
        u = ⟨some (validate_draft_output o.backend d (str "email")
              (build_context st.enrichment_data st.research_results) true).filtered_text,
             [str "email_blocked_by_protect"],
             some (str "Guardrails triggered: " ++ joinSep (str ", ")
               ((validate_draft_output o.backend d (str "email")
                 (build_context st.enrichment_data st.research_results) true).violations.map
                   Violation.metric))⟩)) ∧
    (∀ (o : LinkedinOracle) (st : LeadState) (d : Str) (u : LinkedinUpdate) (t : List Call),
      o.llm = .ok d → draft_linkedin_node o st = .ok (u, t) →
      Call.protectValidate d (str "linkedin") ∈ t ∧
      ((validate_draft_output o.backend d (str "linkedin")
          (build_context st.enrichment_data st.research_results) true).safe = false →
        u = ⟨some (validate_draft_output o.backend d (str "linkedin")
              (build_context st.enrichment_data st.research_results) true).filtered_text,
             [str "linkedin_blocked_by_protect"],
             some (str "Guardrails triggered: " ++ joinSep (str ", ")
               ((validate_draft_output o.backend d (str "linkedin")
                 (build_context st.enrichment_data st.research_results) true).violations.map
                   Violation.metric))⟩)) ∧
    (∀ (co : CallScriptOracle) (st : LeadState),
      ((draft_call_script_node co st).2.filter isProtectCall) = []) := by
  refine ⟨?_, ?_, ?_⟩
  · intro o st d u t hllm hok
    unfold draft_email_node at hok
    cases hrec : emailRecipient st with
    | error e => rw [hrec] at hok; exact absurd hok (by simp)
    | ok r =>
      rw [hrec, hllm] at hok
      by_cases hsafe : (validate_draft_output o.backend d (str "email")
          (build_context st.enrichment_data st.research_results) true).safe
      · simp only [hsafe, Bool.not_true, Bool.false_eq_true, if_false] at hok
        cases hcn : emailCompanyName st with
        | error e =>
          rw [hcn] at hok
          simp only [Except.ok.injEq, Prod.mk.injEq] at hok
          refine ⟨by rw [← hok.2]; exact List.mem_cons_self _ _, fun hf => ?_⟩
          rw [hsafe] at hf; simp at hf
        | ok cn =>
          rw [hcn] at hok
          cases hgm : o.gmail <;> rw [hgm] at hok <;>
            simp only [Except.ok.injEq, Prod.mk.injEq] at hok <;>
            refine ⟨by rw [← hok.2]; exact List.mem_cons_self _ _, fun hf => ?_⟩ <;>
            · rw [hsafe] at hf; simp at hf
      · simp only [Bool.not_eq_true] at hsafe
        simp only [hsafe, Bool.not_false, if_true] at hok
        simp only [Except.ok.injEq, Prod.mk.injEq] at hok
        refine ⟨by rw [← hok.2]; exact List.mem_cons_self _ _, fun _ => hok.1.symm⟩
  · intro o st d u t hllm hok
    unfold draft_linkedin_node at hok
    cases hrec : emailRecipient st with
    | error e => rw [hrec] at hok; exact absurd hok (by simp)
    | ok r =>
      rw [hrec, hllm] at hok
      by_cases hsafe : (validate_draft_output o.backend d (str "linkedin")
          (build_context st.enrichment_data st.research_results) true).safe
      · simp only [hsafe, Bool.not_true, Bool.false_eq_true, if_false] at hok
        cases hapi : o.api <;> rw [hapi] at hok <;>
          simp only [Except.ok.injEq, Prod.mk.injEq] at hok <;>
          refine ⟨by rw [← hok.2]; exact List.mem_cons_self _ _, fun hf => ?_⟩ <;>
          · rw [hsafe] at hf; simp at hf
      · simp only [Bool.not_eq_true] at hsafe
        simp only [hsafe, Bool.not_false, if_true] at hok
        simp only [Except.ok.injEq, Prod.mk.injEq] at hok
        refine ⟨by rw [← hok.2]; exact List.mem_cons_self _ _, fun _ => hok.1.symm⟩
  · intro co st
    obtain ⟨llm, fs⟩ := co
    cases llm <;> cases fs <;> rfl

/-- C1 witness: the gated-drafts theorem applied to a concrete email-node
run with an always-blocking backend. -/
theorem email_linkedin_guardrail_gated_witness :
    (⟨.ok (str "hi there"), .responds (gpInvokeModel (fun _ => true)), .ok ()⟩ : EmailOracle).llm
        = .ok (str "hi there") ∧
    ∃ u t, draft_email_node
        ⟨.ok (str "hi there"), .responds (gpInvokeModel (fun _ => true)), .ok ()⟩
        exampleNameState = .ok (u, t) ∧ Call.protectValidate (str "hi there") (str "email") ∈ t :=
  ⟨rfl, _, _, rfl,
   (email_linkedin_guardrail_gated.1 ⟨.ok (str "hi there"), .responds (gpInvokeModel (fun _ => true)), .ok ()⟩
     exampleNameState (str "hi there") _ _ rfl rfl).1⟩

/-- C8: the guardrail rule list is built in priority order PII, toxicity
(threshold 0.7 in strict mode, 0.85 otherwise), tone (anger/annoyance, with
fear/sadness appended only for the linkedin artifact), and under the
backend contract (first triggered prioritized rule determines the override)
content triggering both the PII and toxicity rules yields `filtered_text`
equal to the PII block template while `violations` still contains both the
pii and toxicity entries. -/
theorem guardrail_first_match_precedence (d : Str) (strict : Bool) (trig : Rule → Bool) (text ui : Str)
    (hpii : trig ⟨str "pii", str "contains", .s (str "any")⟩ = true)
    (htox : trig ⟨str "toxicity", str "gt", .num (if strict then 7/10 else 17/20)⟩ = true) :
    (build_rulesets d strict).map (fun rs => rs.rules.map Rule.metric) =
      [[str "pii"], [str "toxicity"], [str "tone"]] ++
        (if d = str "linkedin" then [[str "tone"]] else []) ∧
    (build_rulesets d strict).map (fun rs => rs.rules.map Rule.target_value) =
      [[.s (str "any")], [.num (if strict then 7/10 else 17/20)],
        [.cats [str "anger", str "annoyance"]]] ++
        (if d = str "linkedin" then [[.cats [str "fear", str "sadness"]]] else []) ∧
    (validate_draft_output (.responds (gpInvokeModel trig)) text d ui strict).filtered_text =
      str "[BLOCKED BY PROTECT: PII detected in " ++ pyUpper d ++
        str ". Please regenerate without personal information.]" ∧
    (∃ v ∈ (validate_draft_output (.responds (gpInvokeModel trig)) text d ui strict).violations,
      v.metric = str "pii") ∧
    (∃ v ∈ (validate_draft_output (.responds (gpInvokeModel trig)) text d ui strict).violations,
      v.metric = str "toxicity") := by
  by_cases hd : d = str "linkedin" <;>
    by_cases htone : trig ⟨str "tone", str "contains", .cats [str "anger", str "annoyance"]⟩ <;>
    by_cases htone2 : trig ⟨str "tone", str "contains", .cats [str "fear", str "sadness"]⟩ <;>
    simp [build_rulesets, validate_draft_output, gpInvokeModel, hd, hpii, htox, htone, htone2,
      List.filter]

/-- C8 witness: the precedence theorem applied to an always-triggering
content predicate for a strict email draft. -/
theorem guardrail_first_match_precedence_witness :
    ((fun _ => true) : Rule → Bool) ⟨str "pii", str "contains", .s (str "any")⟩ = true ∧
    ((fun _ => true) : Rule → Bool)
        ⟨str "toxicity", str "gt", .num (if true then 7/10 else 17/20)⟩ = true ∧
    (validate_draft_output (.responds (gpInvokeModel (fun _ => true))) (str "some draft")
        (str "email") (str "ctx") true).filtered_text =
      str "[BLOCKED BY PROTECT: PII detected in " ++ pyUpper (str "email") ++
        str ". Please regenerate without personal information.]" :=
  ⟨rfl, rfl,
   (guardrail_first_match_precedence (str "email") true (fun _ => true) (str "some draft")
     (str "ctx") rfl rfl).2.2.1⟩

/-- For a well-formed state the pre-`try` recipient computation of the
draft nodes never raises. -/
theorem recipient_ok_of_wf (st : LeadState) (hwf : wellFormedInput st) :
    ∃ r, emailRecipient st = .ok r := by
  unfold emailRecipient
  rcases hwf with ⟨h1, _⟩ | ⟨h1, h2, h3⟩
  · rw [if_pos h1]; exact ⟨_, rfl⟩
  · rw [if_neg (by rw [h1]; decide)]
    obtain ⟨n, hn⟩ := Option.isSome_iff_exists.mp h2
    obtain ⟨c, hc⟩ := Option.isSome_iff_exists.mp h3
    rw [hn, hc]; exact ⟨_, rfl⟩

/-- For a well-formed state no exception escapes `web_research_node`. -/
theorem web_research_ok_of_wf (wo : Except Str ResearchResults) (st : LeadState)
    (hwf : wellFormedInput st) : ∃ u t, web_research_node wo st = .ok (u, t) := by
  unfold web_research_node
  rcases hwf with ⟨h1, _⟩ | ⟨h1, h2, h3⟩
  · rw [if_pos h1]; cases wo <;> exact ⟨_, _, rfl⟩
  · rw [if_neg (by rw [h1]; decide)]
    obtain ⟨n, hn⟩ := Option.isSome_iff_exists.mp h2
    obtain ⟨c, hc⟩ := Option.isSome_iff_exists.mp h3
    rw [hn, hc]; cases wo <;> exact ⟨_, _, rfl⟩

/-- Once its recipient computation succeeds, no exception escapes
`draft_email_node`. -/
theorem email_node_ok (eo : EmailOracle) (st : LeadState) (r : Option Str)
    (hr : emailRecipient st = .ok r) : ∃ u t, draft_email_node eo st = .ok (u, t) := by
  unfold draft_email_node
  rw [hr]
  cases eo.llm with
  | error e => exact ⟨_, _, rfl⟩
  | ok d =>
    by_cases hsafe : (validate_draft_output eo.backend d (str "email")
        (build_context st.enrichment_data st.research_results) true).safe
    · simp only [hsafe, Bool.not_true, Bool.false_eq_true, if_false]
      cases emailCompanyName st with
      | error e => exact ⟨_, _, rfl⟩
      | ok cn => cases eo.gmail <;> exact ⟨_, _, rfl⟩
    · simp only [Bool.not_eq_true] at hsafe
      simp only [hsafe, Bool.not_false, if_true]
      exact ⟨_, _, rfl⟩

/-- Once its recipient computation succeeds, `draft_linkedin_node` returns
and its update settles the SOCIAL_MESSAGE slot: a draft with a success or
block status, or an absent draft with the error status. -/
theorem linkedin_node_outcome (lo : LinkedinOracle) (st : LeadState) (r : Option Str)
    (hr : emailRecipient st = .ok r) :
    ∃ u t, draft_linkedin_node lo st = .ok (u, t) ∧
      ((∃ s, u.linkedin_draft = some s ∧
        (u.status = [str "linkedin_drafted"] ∨ u.status = [str "linkedin_blocked_by_protect"])) ∨
       (u.linkedin_draft = none ∧ u.status = [str "linkedin_error"])) := by
  unfold draft_linkedin_node
  rw [hr]
  cases lo.llm with
  | error e => exact ⟨_, _, rfl, .inr ⟨rfl, rfl⟩⟩
  | ok d =>
    by_cases hsafe : (validate_draft_output lo.backend d (str "linkedin")
        (build_context st.enrichment_data st.research_results) true).safe
    · simp only [hsafe, Bool.not_true, Bool.false_eq_true, if_false]
      cases lo.api with
      | error e => exact ⟨_, _, rfl, .inr ⟨rfl, rfl⟩⟩
      | ok x => exact ⟨_, _, rfl, .inl ⟨_, rfl, .inl rfl⟩⟩
    · simp only [Bool.not_eq_true] at hsafe
      simp only [hsafe, Bool.not_false, if_true]
      exact ⟨_, _, rfl, .inl ⟨_, rfl, .inr rfl⟩⟩

/-- `draft_call_script_node` always returns and settles the CALL_SCRIPT
slot: a script with the success status, or an absent script with the error
status. -/
theorem call_script_node_outcome (co : CallScriptOracle) (st : LeadState) :
    (∃ s, (draft_call_script_node co st).1.call_script = some s ∧
      (draft_call_script_node co st).1.status = [str "call_script_drafted"]) ∨
    ((draft_call_script_node co st).1.call_script = none ∧
      (draft_call_script_node co st).1.status = [str "call_script_error"]) := by
  unfold draft_call_script_node
  cases co.llm with
  | error e => exact .inr ⟨rfl, rfl⟩
  | ok d =>
    cases co.fileSave with
    | error e => exact .inr ⟨rfl, rfl⟩
    | ok x => exact .inl ⟨_, rfl, rfl⟩

/-- For every well-formed initial state the run either aborts with the
`InvalidUpdateError` of a double write to the reducer-less `error` channel
in the fan-out superstep, or returns a final state settling both the
SOCIAL_MESSAGE and CALL_SCRIPT slots: the channel collision is the only
failure that escapes the orchestrator. -/
theorem fanout_settles_or_error_collision (o : Oracles) (st0 : LeadState)
    (hwf : wellFormedInput st0) :
    run_graph o st0 = .error invalidUpdateMsg ∨
      ∃ fin tr, run_graph o st0 = .ok (fin, tr) ∧
        linkedinSettled fin ∧ callScriptSettled fin := by
  unfold run_graph
  rw [if_pos (show should_do_research _ = str "research" from rfl)]
  set st1 := applyEnrich st0 (retrieve_enrichment o.retrieverResult st0) with hst1
  have hwf1 : wellFormedInput st1 := hwf
  obtain ⟨ur, tr1, hweb⟩ := web_research_ok_of_wf o.webResearchResult st1 hwf1
  rw [hweb]
  unfold runDrafts
  dsimp only
  set st2 := applyResearch st1 ur with hst2
  have hwf2 : wellFormedInput st2 := hwf
  obtain ⟨r2, hr2⟩ := recipient_ok_of_wf st2 hwf2
  obtain ⟨ue, te, hemail⟩ := email_node_ok o.email st2 r2 hr2
  rw [hemail]
  dsimp only
  set st3 := applyEmail st2 ue with hst3
  have hwf3 : wellFormedInput st3 := hwf
  obtain ⟨r3, hr3⟩ := recipient_ok_of_wf st3 hwf3
  obtain ⟨ul, tl, hli, hout⟩ := linkedin_node_outcome o.linkedin st3 r3 hr3
  rw [hli]
  dsimp only
  have houtc := call_script_node_outcome o.callScript st3
  rcases hcs : draft_call_script_node o.callScript st3 with ⟨uc, tc⟩
  rw [hcs] at houtc
  dsimp only at houtc ⊢
  have hstat : (applyCallScript (applyLinkedin st3 ul) uc).status
      = st3.status ++ ul.status ++ uc.status := rfl
  have hld : (applyCallScript (applyLinkedin st3 ul) uc).linkedin_draft = ul.linkedin_draft := rfl
  have hcsd : (applyCallScript (applyLinkedin st3 ul) uc).call_script = uc.call_script := rfl
  have hs1 : linkedinSettled (applyCallScript (applyLinkedin st3 ul) uc) := by
    rcases hout with ⟨s, hs, hst⟩ | ⟨hs, hst⟩
    · refine .inl ⟨s, by rw [hld]; exact hs, ?_⟩
      rcases hst with h | h
      · exact .inl (by rw [hstat, h]; simp)
      · exact .inr (by rw [hstat, h]; simp)
    · exact .inr ⟨by rw [hld]; exact hs, by rw [hstat, hst]; simp⟩
  have hs2 : callScriptSettled (applyCallScript (applyLinkedin st3 ul) uc) := by
    rcases houtc with ⟨s, hs, hst⟩ | ⟨hs, hst⟩
    · exact .inl ⟨s, by rw [hcsd]; exact hs, by rw [hstat, hst]; simp⟩
    · exact .inr ⟨by rw [hcsd]; exact hs, by rw [hstat, hst]; simp⟩
  cases hule : ul.error with
  | some e1 =>
    cases huce : uc.error with
    | some e2 => exact .inl rfl
    | none => exact .inr ⟨_, _, rfl, hs1, hs2⟩
  | none => exact .inr ⟨_, _, rfl, hs1, hs2⟩

/-- C3: the claim is the spec's intent, and the code violates it. On a
well-formed email-mode initial state where both fan-out LLM calls fail,
`draft_linkedin` and `draft_call_script` each return an `error` key in the
same superstep; `error` has no reducer in `LeadState`, so the run aborts
with LangGraph's `InvalidUpdateError` instead of settling both artifact
slots with `*_error` status tokens. -/
theorem fanout_error_collision_bug :
    wellFormedInput exampleEmailState ∧
    run_graph exampleOracles exampleEmailState = .error invalidUpdateMsg :=
  ⟨.inl ⟨rfl, rfl⟩, rfl⟩

/-- A prefix occurrence is a substring occurrence. -/
theorem listStarts_strHas (kw p : Str) (h : listStarts kw p = true) : strHas kw p = true := by
  cases p with
  | nil => exact h
  | cons b bs => unfold strHas; rw [h]; rfl

/-- Substring occurrence is preserved by prepending a character. -/
theorem strHas_cons_of (kw p : Str) (a : Char) (h : strHas kw p = true) :
    strHas kw (a :: p) = true := by
  unfold strHas
  rw [Bool.or_eq_true]
  right
  exact h

/-- A prefix occurrence that avoids the separator stays within the part
before the separator. -/
theorem startsCut (kw : Str) (c : Char) :
    ∀ (p q : Str), listStarts kw (p ++ c :: q) = true → (∀ x ∈ kw, x ≠ c) →
      listStarts kw p = true := by
  induction kw with
  | nil => intro p q _ _; rfl
  | cons k ks ih =>
    intro p q h hc
    cases p with
    | nil =>
      simp only [List.nil_append, listStarts, Bool.and_eq_true, beq_iff_eq] at h
      exact absurd h.1 (hc k (List.mem_cons_self k ks))
    | cons a p2 =>
      simp only [List.cons_append, listStarts, Bool.and_eq_true] at h ⊢
      exact ⟨h.1, ih p2 q h.2 (fun x hx => hc x (List.mem_cons_of_mem k hx))⟩

/-- A substring that avoids the separator lies entirely on one side of it. -/
theorem strHasSplit (kw : Str) (c : Char) (hk : kw ≠ []) (hc : ∀ x ∈ kw, x ≠ c) :
    ∀ (p q : Str), strHas kw (p ++ c :: q) = true →
      strHas kw p = true ∨ strHas kw q = true := by
  intro p
  induction p with
  | nil =>
    intro q h
    obtain ⟨k, ks, hkw⟩ := List.exists_cons_of_ne_nil hk
    rw [List.nil_append] at h
    unfold strHas at h
    rcases Bool.or_eq_true _ _ |>.mp h with h1 | h1
    · rw [hkw] at h1
      simp only [listStarts, Bool.and_eq_true, beq_iff_eq] at h1
      exact absurd h1.1 (hc k (hkw ▸ List.mem_cons_self k ks))
    · exact .inr h1
  | cons a p2 ih =>
    intro q h
    rw [List.cons_append] at h
    unfold strHas at h
    rcases Bool.or_eq_true _ _ |>.mp h with h1 | h1
    · rw [← List.cons_append] at h1
      exact .inl (listStarts_strHas kw (a :: p2) (startsCut kw c (a :: p2) q h1 hc))
    · rcases ih q h1 with h2 | h2
      · exact .inl (strHas_cons_of kw p2 a h2)
      · exact .inr h2

/-- `splitOnChar` never returns an empty part list. -/
theorem splitOnChar_ne_nil (c : Char) (l : Str) : splitOnChar c l ≠ [] := by
  cases l with
  | nil => simp [splitOnChar]
  | cons x xs =>
    unfold splitOnChar
    by_cases h : x == c
    · simp [h]
    · simp only [h, Bool.false_eq_true, if_false]
      cases splitOnChar c xs <;> simp

/-- `joinChar` is a left inverse of `splitOnChar`. -/
theorem joinChar_splitOnChar (c : Char) (l : Str) : joinChar c (splitOnChar c l) = l := by
  induction l with
  | nil => rfl
  | cons x xs ih =>
    obtain ⟨r0, rs, hr⟩ := List.exists_cons_of_ne_nil (splitOnChar_ne_nil c xs)
    unfold splitOnChar
    by_cases h : x == c
    · have hx : x = c := beq_iff_eq.mp h
      simp only [h, if_true]
      rw [hr]
      show ([] : Str) ++ c :: joinChar c (r0 :: rs) = x :: xs
      rw [List.nil_append, ← hr, ih, hx]
    · simp only [h, Bool.false_eq_true, if_false]
      rw [hr]
      cases rs with
      | nil =>
        show (x :: r0 : Str) = x :: xs
        have h2 : joinChar c [r0] = xs := by rw [← hr, ih]
        simp only [joinChar] at h2
        rw [h2]
      | cons r1 rs2 =>
        show (x :: r0) ++ c :: joinChar c (r1 :: rs2) = x :: xs
        rw [List.cons_append]
        congr 1
        have h2 : joinChar c (r0 :: r1 :: rs2) = xs := by rw [← hr, ih]
        rw [← h2]
        rfl

/-- A separator-free substring of a joined list occurs inside one of the
parts. -/
theorem strHas_joinChar (c : Char) (kw : Str) (hk : kw ≠ []) (hc : ∀ x ∈ kw, x ≠ c) :
    ∀ parts : List Str, strHas kw (joinChar c parts) = true →
      ∃ p ∈ parts, strHas kw p = true := by
  intro parts
  induction parts with
  | nil =>
    intro h
    obtain ⟨k, ks, hkw⟩ := List.exists_cons_of_ne_nil hk
    rw [hkw] at h
    exact absurd h (by simp [joinChar, strHas, listStarts])
  | cons p ps ih =>
    intro h
    cases ps with
    | nil => exact ⟨p, List.mem_cons_self p [], h⟩
    | cons p1 ps2 =>
      have hj : joinChar c (p :: p1 :: ps2) = p ++ c :: joinChar c (p1 :: ps2) := rfl
      rw [hj] at h
      rcases strHasSplit kw c hk hc p (joinChar c (p1 :: ps2)) h with h1 | h1
      · exact ⟨p, List.mem_cons_self p _, h1⟩
      · obtain ⟨p2, hp2, hh⟩ := ih h1
        exact ⟨p2, List.mem_cons_of_mem p hp2, hh⟩

/-- Lowercasing commutes with joining on the dot separator, which is
case-invariant. -/
theorem pyLower_joinChar (parts : List Str) :
    pyLower (joinChar '.' parts) = joinChar '.' (parts.map pyLower) := by
  induction parts with
  | nil => rfl
  | cons p ps ih =>
    cases ps with
    | nil => rfl
    | cons p1 ps2 =>
      show pyLower (p ++ '.' :: joinChar '.' (p1 :: ps2)) =
        pyLower p ++ '.' :: joinChar '.' ((p1 :: ps2).map pyLower)
      rw [← ih]
      simp [pyLower]
      rfl

/-- The head of an occurring substring is a member of the haystack. -/
theorem strHas_mem_head (k : Char) (ks hay : Str) (h : strHas (k :: ks) hay = true) :
    k ∈ hay := by
  induction hay with
  | nil => exact absurd h (by simp [strHas, listStarts])
  | cons b bs ih =>
    unfold strHas at h
    rcases Bool.or_eq_true _ _ |>.mp h with h1 | h1
    · simp only [listStarts, Bool.and_eq_true, beq_iff_eq] at h1
      rw [h1.1]
      exact List.mem_cons_self b bs
    · exact List.mem_cons_of_mem b (ih h1)

/-- `find?` returns an element satisfying the predicate (restated with
explicit arguments, to guide unification). -/
theorem find?_prop {α : Type} (p : α → Bool) (l : List α) (a : α)
    (h : l.find? p = some a) : p a = true :=
  List.find?_some h

/-- Lowercasing never changes whether a character is whitespace. -/
theorem pySpace_pyCharLower (c : Char) : pySpace (pyCharLower c) = pySpace c := by
  unfold pyCharLower
  cases hf : lowerPairs.find? (fun p => p.1 == c) with
  | none => rfl
  | some pr =>
    have hp1 := find?_prop (fun p => p.1 == c) lowerPairs pr hf
    have hp : pr.1 = c := beq_iff_eq.mp hp1
    have hm : pr ∈ lowerPairs := List.mem_of_find?_eq_some hf
    have hfact : ∀ q ∈ lowerPairs, pySpace q.1 = false ∧ pySpace q.2 = false := by decide
    show pySpace pr.2 = pySpace c
    rw [(hfact pr hm).2, ← hp, (hfact pr hm).1]

/-- A non-whitespace member survives dropping leading whitespace. -/
theorem mem_dropWhile_of_not_pySpace (c : Char) (l : Str) (hc : pySpace c = false)
    (h : c ∈ l) : c ∈ l.dropWhile pySpace := by
  induction l with
  | nil => cases h
  | cons x xs ih =>
    by_cases hx : pySpace x
    · rw [List.dropWhile_cons_of_pos hx]
      rcases List.mem_cons.mp h with h1 | h1
      · exact absurd (h1 ▸ hx) (by rw [hc]; simp)
      · exact ih h1
    · rw [List.dropWhile_cons_of_neg hx]
      exact h

/-- Stripping a string containing a non-whitespace character is non-empty. -/
theorem pyStrip_ne_nil (c : Char) (l : Str) (hc : pySpace c = false) (h : c ∈ l) :
    pyStrip l ≠ [] := by
  unfold pyStrip
  have h1 := mem_dropWhile_of_not_pySpace c l hc h
  have h2 : c ∈ (l.dropWhile pySpace).reverse := List.mem_reverse.mpr h1
  have h3 := mem_dropWhile_of_not_pySpace c _ hc h2
  intro hnil
  rw [List.reverse_eq_nil_iff] at hnil
  rw [hnil] at h3
  cases h3

/-- A positive-length prefix of a non-empty list is non-empty. -/
theorem take_ne_nil_of_ne_nil (l : Str) (n : Nat) (hl : l ≠ []) (hn : n ≠ 0) :
    l.take n ≠ [] := by
  cases l with
  | nil => exact absurd rfl hl
  | cons x xs =>
    cases n with
    | zero => exact absurd rfl hn
    | succ m => simp [List.take]

/-- A non-empty present string is Python-truthy. -/
theorem pyTruthy_some_of_ne_nil (s : Str) (h : s ≠ []) : pyTruthy (some s) = true := by
  cases s with
  | nil => exact absurd rfl h
  | cons a as => rfl

/-- A dot-free keyword occurring in the lowercased entry occurs in the
lowercased form of one of its dot-sentences. -/
theorem entry_contains_sentence (kw entry : Str) (hk : kw ≠ [])
    (hc : ∀ x ∈ kw, x ≠ '.') (h : strHas kw (pyLower entry) = true) :
    ∃ sent ∈ splitOnChar '.' entry, strHas kw (pyLower sent) = true := by
  have h1 : pyLower entry = joinChar '.' ((splitOnChar '.' entry).map pyLower) := by
    rw [← pyLower_joinChar, joinChar_splitOnChar]
  rw [h1] at h
  obtain ⟨p, hp, hh⟩ := strHas_joinChar '.' kw hk hc _ h
  obtain ⟨sent, hsent, hpl⟩ := List.mem_map.mp hp
  exact ⟨sent, hsent, by rw [hpl]; exact hh⟩

/-- The stripped, capped sentence produced for a whitespace-free keyword
match is truthy. -/
theorem stripTake_truthy (kw sent : Str) (hk : kw ≠ [])
    (hsp : ∀ ch ∈ kw, pySpace ch = false) (h : strHas kw (pyLower sent) = true) :
    pyTruthy (some ((pyStrip sent).take 150)) = true := by
  obtain ⟨k, ks, hkw⟩ := List.exists_cons_of_ne_nil hk
  rw [hkw] at h
  have hmem : k ∈ pyLower sent := strHas_mem_head k ks (pyLower sent) h
  obtain ⟨y, hy, hyl⟩ := List.mem_map.mp hmem
  have hysp : pySpace y = false := by
    rw [← pySpace_pyCharLower, hyl]
    exact hsp k (hkw ▸ List.mem_cons_self k ks)
  exact pyTruthy_some_of_ne_nil _
    (take_ne_nil_of_ne_nil _ 150 (pyStrip_ne_nil y sent hysp hy) (by decide))

/-- If some keyword of the list occurs in the lowercased entry, the keyword
scan yields a truthy hook. -/
theorem scanKeywords_truthy (entry : Str) :
    ∀ (kws : List Str) (h : Option Str),
      (∀ kw ∈ kws, kw ≠ [] ∧ ∀ ch ∈ kw, ch ≠ '.' ∧ pySpace ch = false) →
      (∃ kw ∈ kws, strHas kw (pyLower entry) = true) →
      pyTruthy (scanKeywords entry kws h) = true := by
  intro kws
  induction kws with
  | nil => intro h _ hex; obtain ⟨kw, hmem, _⟩ := hex; cases hmem
  | cons kw rest ih =>
    intro h hgood hex
    have hgkw := hgood kw (List.mem_cons_self kw rest)
    by_cases hhit : strHas kw (pyLower entry) = true
    · obtain ⟨sent, hsmem, hs⟩ := entry_contains_sentence kw entry hgkw.1
        (fun ch hch => (hgkw.2 ch hch).1) hhit
      unfold scanKeywords
      rw [if_pos hhit]
      cases hfind : (splitOnChar '.' entry).find? (fun s2 => strHas kw (pyLower s2)) with
      | none =>
        exact absurd hs (List.find?_eq_none.mp hfind sent hsmem)
      | some sent0 =>
        have hp0 := find?_prop _ _ _ hfind
        have ht := stripTake_truthy kw sent0 hgkw.1 (fun ch hch => (hgkw.2 ch hch).2) hp0
        rw [if_pos ht]
        exact ht
    · have hhit2 : strHas kw (pyLower entry) = false := by
        cases hb : strHas kw (pyLower entry)
        · rfl
        · exact absurd hb hhit
      unfold scanKeywords
      rw [hhit2]
      simp only [Bool.false_eq_true, if_false]
      refine ih h (fun k hk => hgood k (List.mem_cons_of_mem kw hk)) ?_
      obtain ⟨kw2, hmem2, hs2⟩ := hex
      rcases List.mem_cons.mp hmem2 with h2 | h2
      · exact absurd (h2 ▸ hs2) (by rw [hhit2]; simp)
      · exact ⟨kw2, h2, hs2⟩

/-- Entry order beats keyword priority: when the first entry contains any
keyword, the entry scan is decided by the first entry alone. -/
theorem scanEntries_first_entry (kws : List Str) (e1 : Str) (rest : List Str)
    (hgood : ∀ kw ∈ kws, kw ≠ [] ∧ ∀ ch ∈ kw, ch ≠ '.' ∧ pySpace ch = false)
    (hex : ∃ kw ∈ kws, strHas kw (pyLower e1) = true) :
    scanEntries kws (e1 :: rest) none = scanKeywords e1 kws none := by
  unfold scanEntries
  rw [if_pos (scanKeywords_truthy e1 kws none hgood hex)]

/-- The keyword scan returns the first dot-sentence containing the first
matching keyword, stripped and capped at 150 characters. -/
theorem scanKeywords_first_match (e : Str) :
    ∀ (kws : List Str) (kw sent : Str),
      (∀ k ∈ kws, k ≠ [] ∧ ∀ ch ∈ k, ch ≠ '.' ∧ pySpace ch = false) →
      kws.find? (fun k => strHas k (pyLower e)) = some kw →
      (splitOnChar '.' e).find? (fun s2 => strHas kw (pyLower s2)) = some sent →
      scanKeywords e kws none = some ((pyStrip sent).take 150) := by
  intro kws
  induction kws with
  | nil => intro kw sent _ hfk _; exact absurd hfk (by simp)
  | cons k0 rest ih =>
    intro kw sent hgood hfk hfs
    by_cases hhit : strHas k0 (pyLower e) = true
    · have hk0 : kw = k0 := by
        have hh : List.find? (fun k => strHas k (pyLower e)) (k0 :: rest) = some k0 := by
          simp only [List.find?]
          rw [hhit]
        rw [hh] at hfk
        injection hfk with h
        exact h.symm
      subst hk0
      unfold scanKeywords
      rw [if_pos hhit, hfs]
      have hgkw := hgood kw (List.mem_cons_self kw rest)
      have ht := stripTake_truthy kw sent hgkw.1 (fun ch hch => (hgkw.2 ch hch).2)
        (find?_prop (fun s2 => strHas kw (pyLower s2)) (splitOnChar '.' e) sent hfs)
      rw [if_pos ht]
    · have hhit2 : strHas k0 (pyLower e) = false := by
        cases hb : strHas k0 (pyLower e)
        · rfl
        · exact absurd hb hhit
      have hh : List.find? (fun k => strHas k (pyLower e)) (k0 :: rest) =
          List.find? (fun k => strHas k (pyLower e)) rest := by
        simp only [List.find?]
        rw [hhit2]
      rw [hh] at hfk
      unfold scanKeywords
      rw [hhit2]
      simp only [Bool.false_eq_true, if_false]
      exact ih kw sent (fun k hk => hgood k (List.mem_cons_of_mem k0 hk)) hfk hfs

/-- Every event keyword is non-empty and free of dots and whitespace. -/
theorem event_keywords_good :
    ∀ kw ∈ event_keywords, kw ≠ [] ∧ ∀ ch ∈ kw, ch ≠ '.' ∧ pySpace ch = false := by
  decide

/-- C4: `extract_personalization_hooks` scans `recent_events` entries in
order and, within an entry, the fixed keyword list in order: the
RECENT_EVENT hook is the first sentence (split on the dot) containing the
first matching keyword of the first entry that contains any keyword,
trimmed and capped at 150 characters; entry order takes priority over
keyword-list priority, so on the spec example the hook comes from the
second entry ("We raised a Series B round"). -/
theorem hook_entry_priority :
    (extract_personalization_hooks (some ⟨[str "We shipped a new feature.",
        str "We raised a Series B round."], [], str ""⟩)).recent_event =
      some (str "We raised a Series B round") ∧
    (∀ (e1 : Str) (rest rest' ps ps' : List Str) (s s' : Str),
      (∃ kw ∈ event_keywords, strHas kw (pyLower e1) = true) →
      (extract_personalization_hooks (some ⟨e1 :: rest, ps, s⟩)).recent_event =
        (extract_personalization_hooks (some ⟨e1 :: rest', ps', s'⟩)).recent_event) ∧
    (∀ (e kw sent : Str) (rest : List Str),
      event_keywords.find? (fun k => strHas k (pyLower e)) = some kw →
      (splitOnChar '.' e).find? (fun s2 => strHas kw (pyLower s2)) = some sent →
      (extract_personalization_hooks (some ⟨e :: rest, [], str ""⟩)).recent_event =
        some ((pyStrip sent).take 150)) := by
  refine ⟨by decide, ?_, ?_⟩
  · intro e1 rest rest' ps ps' s s' hex
    have h1 : (extract_personalization_hooks (some ⟨e1 :: rest, ps, s⟩)).recent_event =
        scanEntries event_keywords (e1 :: rest) none := rfl
    have h2 : (extract_personalization_hooks (some ⟨e1 :: rest', ps', s'⟩)).recent_event =
        scanEntries event_keywords (e1 :: rest') none := rfl
    rw [h1, h2, scanEntries_first_entry event_keywords e1 rest event_keywords_good hex,
      scanEntries_first_entry event_keywords e1 rest' event_keywords_good hex]
  · intro e kw sent rest hfk hfs
    have hex : ∃ k ∈ event_keywords, strHas k (pyLower e) = true :=
      ⟨kw, List.mem_of_find?_eq_some hfk,
       find?_prop (fun k => strHas k (pyLower e)) event_keywords kw hfk⟩
    have h1 : (extract_personalization_hooks (some ⟨e :: rest, [], str ""⟩)).recent_event =
        scanEntries event_keywords (e :: rest) none := rfl
    rw [h1, scanEntries_first_entry event_keywords e rest event_keywords_good hex,
      scanKeywords_first_match e event_keywords kw sent event_keywords_good hfk hfs]

/-- C4 witness: the hook-priority theorem applied to a concrete entry whose
first matching keyword is `raised`, selecting the first sentence. -/
theorem hook_entry_priority_witness :
    event_keywords.find?
        (fun k => strHas k (pyLower (str "Acme raised a new fund. More text."))) =
      some (str "raised") ∧
    (splitOnChar '.' (str "Acme raised a new fund. More text.")).find?
        (fun s2 => strHas (str "raised") (pyLower s2)) =
      some (str "Acme raised a new fund") ∧
    (extract_personalization_hooks
        (some ⟨[str "Acme raised a new fund. More text."], [], str ""⟩)).recent_event =
      some ((pyStrip (str "Acme raised a new fund")).take 150) :=
  ⟨by decide, by decide,
   hook_entry_priority.2.2 (str "Acme raised a new fund. More text.") (str "raised")
     (str "Acme raised a new fund") [] (by decide) (by decide)⟩

/-- C5 counterexample: with all three hooks absent and a non-empty summary
whose first sentence contains an AI keyword, the fallback still does not
fire, because the summary is not longer than 50 characters — PAIN_POINT
stays absent, contradicting the claim. -/
theorem summary_fallback_cex :
    extract_personalization_hooks
        (some ⟨[], [], str "We build machine learning systems today."⟩) =
      ⟨none, none, none⟩ ∧
    (pyLower (str "We build machine learning systems today.")).isEmpty = false ∧
    ((splitOnChar '.' (pyLower (str "We build machine learning systems today."))).take 3).any
        (fun s => ai_keywords.any (fun w => strHas w (pyLower (pyStrip s)))) = true ∧
    (extract_personalization_hooks
        (some ⟨[], [], str "We build machine learning systems today."⟩)).pain_point = none := by
  refine ⟨by decide, by decide, by decide, by decide⟩

/-- C5 amended: when all three hooks are absent and the (lowercased)
summary is non-empty and longer than 50 characters, the fallback scans the
first 3 dot-sentences of the summary and, on the first sentence that strips
to more than 30 characters and contains an AI/technology keyword, sets
PAIN_POINT to "Focus on <sentence prefix>..." with the prefix capped at 120
characters. -/
theorem summary_fallback_conditions (rr : ResearchResults) (sent : Str)
    (h1 : pyTruthy (scanEntries event_keywords rr.recent_events none) = false)
    (h2 : pyTruthy (scanEntries pain_keywords rr.pain_signals none) = false)
    (h3 : pyTruthy (growthScan growth_keywords (pyLower rr.summary)) = false)
    (h4 : (pyLower rr.summary).isEmpty = false)
    (h5 : 50 < (pyLower rr.summary).length)
    (h6 : ((splitOnChar '.' (pyLower rr.summary)).take 3).find?
        (fun s =>
          decide (30 < (pyStrip s).length) &&
            ai_keywords.any (fun w => strHas w (pyLower (pyStrip s)))) = some sent) :
    (extract_personalization_hooks (some rr)).pain_point =
      some (str "Focus on " ++ (pyStrip sent).take 120 ++ str "...") := by
  unfold extract_personalization_hooks
  dsimp only
  rw [h1, h2, h3, h4]
  simp only [Bool.not_false, Bool.and_true, Bool.and_self, if_true]
  unfold fallbackScan
  rw [if_pos h5, h6]

/-- C5 witness: the amended fallback theorem applied to a concrete summary
longer than 50 characters whose first sentence mentions artificial
intelligence. -/
theorem summary_fallback_conditions_witness :
    pyTruthy (scanEntries event_keywords ([] : List Str) none) = false ∧
    pyTruthy (growthScan growth_keywords (pyLower (str "The migration toward artificial intelligence has transformed enterprise compliance software everywhere."))) = false ∧
    50 < (pyLower (str "The migration toward artificial intelligence has transformed enterprise compliance software everywhere.")).length ∧
    (extract_personalization_hooks (some ⟨[], [],
        str "The migration toward artificial intelligence has transformed enterprise compliance software everywhere."⟩)).pain_point =
      some (str "Focus on " ++
        (pyStrip (str "the migration toward artificial intelligence has transformed enterprise compliance software everywhere")).take 120 ++
        str "...") :=
  ⟨by decide, by decide, by decide,
   summary_fallback_conditions ⟨[], [],
       str "The migration toward artificial intelligence has transformed enterprise compliance software everywhere."⟩
     (str "the migration toward artificial intelligence has transformed enterprise compliance software everywhere")
     (by decide) (by decide) (by decide) (by decide) (by decide) (by decide)⟩

/-- A whitespace character is one of the six ASCII whitespace characters. -/
theorem pySpace_cases (c : Char) (h : pySpace c = true) :
    c = ' ' ∨ c = '\t' ∨ c = '\n' ∨ c = '\r' ∨ c = '\x0b' ∨ c = '\x0c' := by
  unfold pySpace at h
  simp only [Bool.or_eq_true, beq_iff_eq] at h
  tauto

/-- Local-part characters of the contact-address pattern are not whitespace. -/
theorem localChar_not_space (c : Char) (h : localChar c = true) : pySpace c = false := by
  cases hs : pySpace c
  · rfl
  · rcases pySpace_cases c hs with h1 | h1 | h1 | h1 | h1 | h1 <;> subst h1 <;>
      exact absurd h (by decide)

/-- Domain characters of the contact-address pattern are not whitespace. -/
theorem domChar_not_space (c : Char) (h : domChar c = true) : pySpace c = false := by
  cases hs : pySpace c
  · rfl
  · rcases pySpace_cases c hs with h1 | h1 | h1 | h1 | h1 | h1 <;> subst h1 <;>
      exact absurd h (by decide)

/-- Alphabetic characters are not whitespace. -/
theorem alpha_not_space (c : Char) (h : c.isAlpha = true) : pySpace c = false := by
  cases hs : pySpace c
  · rfl
  · rcases pySpace_cases c hs with h1 | h1 | h1 | h1 | h1 | h1 <;> subst h1 <;>
      exact absurd h (by decide)

/-- Dropping while a predicate holds is the identity when no element
satisfies it. -/
theorem dropWhile_eq_self_of_no (p : Char → Bool) (l : Str) (h : ∀ c ∈ l, p c = false) :
    l.dropWhile p = l := by
  cases l with
  | nil => rfl
  | cons x xs =>
    rw [List.dropWhile_cons_of_neg]
    rw [h x (List.mem_cons_self x xs)]
    simp

/-- Stripping a string with no whitespace characters is the identity. -/
theorem pyStrip_eq_self (l : Str) (h : ∀ c ∈ l, pySpace c = false) : pyStrip l = l := by
  unfold pyStrip
  rw [dropWhile_eq_self_of_no _ _ h,
    dropWhile_eq_self_of_no _ _ (fun c hc => h c (List.mem_reverse.mp hc)),
    List.reverse_reverse]

/-- A non-empty list is its front followed by its last element. -/
theorem dropLast_append_getLastD (t : List Str) :
    ∀ (x fb : Str), (x :: t).dropLast ++ [(x :: t).getLastD fb] = x :: t := by
  induction t with
  | nil => intro x fb; rfl
  | cons y t2 ih =>
    intro x fb
    show x :: ((y :: t2).dropLast ++ [(y :: t2).getLastD x]) = x :: y :: t2
    rw [ih y x]

/-- Joining with a final singleton appends a separator and the last part. -/
theorem joinChar_append_last (c : Char) :
    ∀ (xs : List Str) (x : Str), xs ≠ [] →
      joinChar c (xs ++ [x]) = joinChar c xs ++ c :: x := by
  intro xs
  induction xs with
  | nil => intro x h; exact absurd rfl h
  | cons p t ih =>
    intro x _
    cases t with
    | nil => rfl
    | cons q t2 =>
      show p ++ c :: joinChar c ((q :: t2) ++ [x]) = (p ++ c :: joinChar c (q :: t2)) ++ c :: x
      rw [ih x (by simp), List.append_assoc]
      rfl

/-- Decomposition of a string accepted by the contact-address pattern into
local part, domain and top-level label with their character classes. -/
theorem emailMatch_parts (s : Str) (h : emailMatch s = true) :
    ∃ l d, s = l ++ '@' :: d ∧ l.isEmpty = false ∧ l.all localChar = true ∧
      ∃ m tld, d = m ++ '.' :: tld ∧ m.isEmpty = false ∧ m.all domChar = true ∧
        2 ≤ tld.length ∧ tld.all Char.isAlpha = true := by
  unfold emailMatch at h
  cases hsp : splitOnChar '@' s with
  | nil => rw [hsp] at h; exact absurd h (by simp)
  | cons l rest =>
    cases rest with
    | nil => rw [hsp] at h; exact absurd h (by simp)
    | cons d rest2 =>
      cases rest2 with
      | cons e rest3 => rw [hsp] at h; exact absurd h (by simp)
      | nil =>
        rw [hsp] at h
        dsimp only at h
        have hs : s = l ++ '@' :: d := by
          have h1 := joinChar_splitOnChar '@' s
          rw [hsp] at h1
          exact h1.symm
        refine ⟨l, d, hs, ?_⟩
        cases hld : splitLastDot d with
        | none => rw [hld] at h; simp at h
        | some pr =>
          obtain ⟨m, tld⟩ := pr
          rw [hld] at h
          simp only [Bool.and_eq_true, Bool.not_eq_true', decide_eq_true_eq] at h
          have hdec : d = m ++ '.' :: tld := by
            simp only [splitLastDot] at hld
            by_cases h2 : 2 ≤ (splitOnChar '.' d).length
            · rw [if_pos h2] at hld
              injection hld with hld2
              have hm : joinChar '.' (splitOnChar '.' d).dropLast = m :=
                congrArg Prod.fst hld2
              have ht : (splitOnChar '.' d).getLastD [] = tld :=
                congrArg Prod.snd hld2
              cases hpp : splitOnChar '.' d with
              | nil => exact absurd hpp (splitOnChar_ne_nil '.' d)
              | cons p0 ps =>
                cases ps with
                | nil =>
                  rw [hpp] at h2
                  have h3 : (2 : Nat) ≤ 1 := by simp at h2
                  exact absurd h3 (by decide)
                | cons p1 ps2 =>
                  rw [hpp] at hm ht
                  have hj : joinChar '.' (p0 :: p1 :: ps2) = d := by
                    rw [← hpp]
                    exact joinChar_splitOnChar '.' d
                  have hdl := dropLast_append_getLastD (p1 :: ps2) p0 ([] : Str)
                  have hne2 : (p0 :: p1 :: ps2).dropLast ≠ [] := by
                    show p0 :: (p1 :: ps2).dropLast ≠ []
                    simp
                  calc d = joinChar '.' (p0 :: p1 :: ps2) := hj.symm
                    _ = joinChar '.' ((p0 :: p1 :: ps2).dropLast ++
                          [(p0 :: p1 :: ps2).getLastD []]) := by rw [hdl]
                    _ = joinChar '.' ((p0 :: p1 :: ps2).dropLast) ++
                          '.' :: (p0 :: p1 :: ps2).getLastD [] :=
                        joinChar_append_last '.' _ _ hne2
                    _ = m ++ '.' :: tld := by rw [hm, ht]
            · rw [if_neg h2] at hld
              exact absurd hld (by simp)
          refine ⟨?_, ?_, m, tld, hdec, ?_, ?_, ?_, ?_⟩ <;> tauto

/-- A string accepted by the contact-address pattern contains no whitespace. -/
theorem emailMatch_no_space (s : Str) (h : emailMatch s = true) :
    ∀ c ∈ s, pySpace c = false := by
  obtain ⟨l, d, hs, _, hall, m, tld, hd, _, hmall, _, htall⟩ := emailMatch_parts s h
  intro c hc
  rw [hs, hd] at hc
  simp only [List.all_eq_true] at hall hmall htall
  rcases List.mem_append.mp hc with h1 | h1
  · exact localChar_not_space c (hall c h1)
  · rcases List.mem_cons.mp h1 with h2 | h2
    · subst h2; rfl
    · rcases List.mem_append.mp h2 with h3 | h3
      · exact domChar_not_space c (hmall c h3)
      · rcases List.mem_cons.mp h3 with h4 | h4
        · subst h4; rfl
        · exact alpha_not_space c (htall c h4)

/-- A string accepted by the contact-address pattern is non-empty. -/
theorem emailMatch_ne_nil (s : Str) (h : emailMatch s = true) : s.isEmpty = false := by
  obtain ⟨l, d, hs, _⟩ := emailMatch_parts s h
  rw [hs]
  cases l <;> rfl

/-- C7 amended: every string matching the strict contact-address pattern is
returned unchanged as `lead_email` with `input_type = "email"` and absent
name/organization fields; and every string that is non-empty after trimming
and matches neither the contact-address pattern nor the name-separator
regex fails with the `ValueError` listing both accepted shapes. -/
theorem normalization_roundtrip_and_invalid :
    (∀ s : Str, emailMatch s = true →
      parse_lead_input s = .ok ⟨str "email", some s, none, none, s⟩) ∧
    (∀ s : Str, (pyStrip s).isEmpty = false → emailMatch (pyStrip s) = false →
      nameCompanyMatch (pyStrip s) = none →
      parse_lead_input s = .error invalidFormatMsg) := by
  constructor
  · intro s h
    have hstrip : pyStrip s = s := pyStrip_eq_self s (emailMatch_no_space s h)
    have hne : s.isEmpty = false := emailMatch_ne_nil s h
    simp [parse_lead_input, hstrip, hne, h]
  · intro s h0 h1 h2
    have hne : s.isEmpty = false := by
      cases hs : s with
      | nil => rw [hs] at h0; exact absurd h0 (by decide)
      | cons a as => rfl
    simp [parse_lead_input, hne, h0, h1, h2]

/-- C7 counterexample: the empty string matches neither accepted shape, yet
`parse_lead_input` rejects it with "Input cannot be empty", a message that
does not list the two accepted shapes. -/
theorem parse_empty_message_cex :
    emailMatch (pyStrip (str "")) = false ∧
    nameCompanyMatch (pyStrip (str "")) = none ∧
    parse_lead_input (str "") = .error (str "Input cannot be empty") ∧
    str "Input cannot be empty" ≠ invalidFormatMsg := by
  refine ⟨by decide, by decide, by rfl, by decide⟩

/-- C7 witness: the round-trip theorem applied to a concrete contact
address and the invalid-shape theorem applied to a concrete non-matching
string. -/
theorem normalization_roundtrip_and_invalid_witness :
    emailMatch (str "sarah.johnson@techcorp.com") = true ∧
    parse_lead_input (str "sarah.johnson@techcorp.com") =
      .ok ⟨str "email", some (str "sarah.johnson@techcorp.com"), none, none,
        str "sarah.johnson@techcorp.com"⟩ ∧
    (pyStrip (str "not an email at all")).isEmpty = false ∧
    emailMatch (pyStrip (str "not an email at all")) = false ∧
    nameCompanyMatch (pyStrip (str "not an email at all")) = none ∧
    parse_lead_input (str "not an email at all") = .error invalidFormatMsg :=
  ⟨by decide, normalization_roundtrip_and_invalid.1 (str "sarah.johnson@techcorp.com") (by decide),
   by decide, by decide, by decide,
   normalization_roundtrip_and_invalid.2 (str "not an email at all") (by decide) (by decide) (by decide)⟩

end BDR
